import Mathlib

/-
Verification of the SBE filter stage builder
(src/mongo/db/query/sbe_stage_builder_filter.cpp).

The translation unit lowers a MatchExpression tree into an SBE plan
stage/expression pair.  This development embeds, as executable Lean
functions:

  * a BSON-like runtime value model (`BVal`) together with the generic
    BSON comparison order used by the SBE `cmp3w`-style primitives;
  * the expression-based path-traversal generator `generateTraverseF`
    (source lines 250-362) specialised to its runtime meaning: the
    generated EExpression is a pure function of the input value, so the
    compile-then-evaluate composition is embedded directly as a Lean
    function of the input value;
  * the leaf predicate builders for comparisons (`generateComparisonExpr`,
    lines 1999-2084), `$exists` (lines 1403-1423) and `$size`
    (`generateArraySize`, lines 822-849);
  * the logical-operator composition done by the visitors
    (`buildLogicalExpression`, lines 926-959, and the NOT/NOR post-visits,
    lines 1620-1643) at the level of its observable boolean result;
  * the driver `generateFilter` (lines 1887-1936) including its
    tasserts, its empty-$and early return, the classic-matcher branch and
    the top-level $and optimization;
  * a reference interpreter of MQL predicate semantics, written from the
    specification's description (spec sections 4.1, 4.3, 8), against which
    the compiled semantics is proved equal.

The embedding covers the configuration where the filter is generated over
a whole-document input slot (`inputSlot` present, no index-scan kField
slots) and the plain boolean state helper (`trackIndex = false`); this is
the configuration all settled claims quantify over, except where a claim
explicitly exercises the other arguments (and then only through code that
runs before those arguments are consulted).
-/

/-! ## BSON-like runtime values -/

/-- A BSON-like runtime value.  This models the subset of SBE value tags
exercised by the embedded operators: Null, numbers (modelled as integers),
strings, booleans, objects, arrays, MinKey and MaxKey.  A *missing* value
(SBE's `Nothing`) is modelled as `none : Option BVal`. -/
inductive BVal where
  | null
  | int (n : Int)
  | str (s : String)
  | bool (b : Bool)
  | obj (fields : List (String × BVal))
  | arr (elems : List BVal)
  | minKey
  | maxKey

/-- Canonical BSON type rank, used to order values of different types and
to detect type mismatches (SBE comparison primitives return Nothing when
the two sides have different canonical types, cf. the comment at source
lines 2007-2010).  Only the relative order matters: MinKey < Null <
numbers < strings < objects < arrays < booleans < MaxKey. -/
def typeRank : BVal → Nat
  | .minKey => 0
  | .null => 1
  | .int _ => 2
  | .str _ => 3
  | .obj _ => 4
  | .arr _ => 5
  | .bool _ => 6
  | .maxKey => 7

mutual
/-- Total BSON woCompare-style ordering: values of different canonical
types are ordered by `typeRank`; arrays compare lexicographically;
objects compare field-by-field (name, then value, then remaining
fields). -/
def bsonCompare : BVal → BVal → Ordering
  | .null, .null => .eq
  | .int m, .int n => compare m n
  | .str s, .str t => compare s t
  | .bool x, .bool y => compare x y
  | .arr xs, .arr ys => bsonCompareList xs ys
  | .obj xs, .obj ys => bsonCompareFields xs ys
  | a, b => compare (typeRank a) (typeRank b)

/-- Lexicographic comparison of array elements; a strict prefix is
smaller. -/
def bsonCompareList : List BVal → List BVal → Ordering
  | [], [] => .eq
  | [], _ :: _ => .lt
  | _ :: _, [] => .gt
  | x :: xs, y :: ys => (bsonCompare x y).then (bsonCompareList xs ys)

/-- Field-sequence comparison of documents: field name, then value, then
the remaining fields; a strict prefix is smaller. -/
def bsonCompareFields : List (String × BVal) → List (String × BVal) → Ordering
  | [], [] => .eq
  | [], _ :: _ => .lt
  | _ :: _, [] => .gt
  | (n, v) :: fs, (n', v') :: fs' =>
    ((compare n n').then (bsonCompare v v')).then (bsonCompareFields fs fs')
end

/-- Look up a top-level field in a field list (first occurrence wins). -/
def lookupField : List (String × BVal) → String → Option BVal
  | [], _ => none
  | (n, v) :: fs, f => if n = f then some v else lookupField fs f

/-- SBE `getField`: reading a field of a non-object (including Nothing,
scalars and arrays) yields Nothing. -/
def getField (v : Option BVal) (f : String) : Option BVal :=
  match v with
  | some (.obj fs) => lookupField fs f
  | _ => none

/-- SBE `isArray` on a possibly-missing value (Nothing is not an array;
this is the meaning of `fillEmpty(isArray(v), false)` in the source). -/
def isArrayV : Option BVal → Bool
  | some (.arr _) => true
  | _ => false

/-- SBE `isObject` on a possibly-missing value (Nothing is not an object;
the meaning of `fillEmpty(isObject(v), false)` at source line 313). -/
def isObjectV : Option BVal → Bool
  | some (.obj _) => true
  | _ => false

/-- The `typeMatch(v, Array|Object)` test of source lines 344-350, guarded
by `fillEmpty(-, false)`: true exactly when the value is present and is an
object or an array. -/
def typeMatchArrayOrObject : Option BVal → Bool
  | some (.obj _) => true
  | some (.arr _) => true
  | _ => false

/-- The `generateNullOrMissing` helper used by the null-comparison branch
(source line 2046): true when the value is missing or is Null. -/
def nullOrMissing : Option BVal → Bool
  | none => true
  | some .null => true
  | _ => false

/-! ## Leaf traversal modes and the traverseF primitive -/

/-- Traversal behaviour at the final path component (source lines
239-248). -/
inductive LeafTraversalMode where
  | kDoNotTraverseLeaf
  | kArrayAndItsElements
  | kArrayElementsOnly
deriving DecidableEq

/-- Modelled from the spec: the `traverseF` runtime primitive of the
downstream SBE virtual machine, which is outside this repository (only its
call site at source lines 333-337 is visible).  Per spec section 4.1 the
primitive applies the lambda to each element of an array input and ORs the
results, and applies the lambda once to a non-array input; when the third
argument (`compareArray`, passed as `needsArrayCheck` by the source) is
set, the lambda is additionally applied to the array as a whole.  For a
missing (`Nothing`) input the lambda itself is applied once, exactly like
any other non-array input: the Nothing result mentioned by the spec is the
lambda's own result on Nothing, which the source guards with
`fillEmpty(-, false)` (source lines 331-333), and the spec's own concrete
scenarios (section 8: the empty document matches `{a: {$lte: null}}`)
require the lambda to see the missing value.  All leaf predicates in this
embedding are total booleans (they are `fillEmpty`-guarded in the source),
so the lambda, and hence `traverseF`, is modelled as boolean-valued. -/
def traverseF (v : Option BVal) (lam : Option BVal → Bool) (compareArray : Bool) : Bool :=
  match v with
  | some (.arr es) => es.any (fun e => lam (some e)) || (compareArray && lam (some (.arr es)))
  | w => lam w

/-- The leaf-level tail of `generateTraverseF` (source lines 292-305 and
331-337): in `kDoNotTraverseLeaf` mode the predicate is bound directly to
the resolved field value with no array unwinding; otherwise the predicate
is applied through `traverseF`, visiting the whole array as well exactly
when the mode is `kArrayAndItsElements` (`needsArrayCheck`, line 270). -/
def generateTraverseFLeaf (fieldVal : Option BVal) (pred : Option BVal → Bool)
    (mode : LeafTraversalMode) : Bool :=
  if mode = LeafTraversalMode.kDoNotTraverseLeaf then pred fieldVal
  else traverseF fieldVal pred (mode = LeafTraversalMode.kArrayAndItsElements)

/-- The trailing-empty-path-component redirect of source lines 280-290:
when the next (last) path component is the empty string, the resolved
value is used as-is if it is an array and otherwise the empty-named
sub-field is read. -/
def emptyNameRedirect (w : Option BVal) : Option BVal :=
  if isArrayV w then w else getField w ""

/-- The expression-based path traversal generator `generateTraverseF`
(source lines 250-362), fused with the evaluation of the expression it
builds: the generated EExpression is a pure function of the value bound to
`inputVar`, so the embedding maps that value (`x`) directly to the boolean
the expression evaluates to.  `f` is the path component at the current
level and `rest` the remaining components, so `rest = []` is
`isLeafField` and `rest = [""]` is `childIsLeafWithEmptyName` (source
lines 266-269).  For non-leaf levels with `matchesNothing` set the source
adds two guards (lines 307-318 and 339-354): the lambda returns false for
non-object elements, and if the resolved field is neither an object nor an
array the traversal is skipped entirely and the result is true unless the
current input is itself an array. -/
def generateTraverseF (x : Option BVal) (f : String) (rest : List String)
    (pred : Option BVal → Bool) (matchesNothing : Bool) (mode : LeafTraversalMode) : Bool :=
  match rest with
  | [] => generateTraverseFLeaf (getField x f) pred mode
  | r :: rs =>
    if rs = [] ∧ r = "" then
      generateTraverseFLeaf (emptyNameRedirect (getField x f)) pred mode
    else
      let fieldVal := getField x f
      if matchesNothing then
        if typeMatchArrayOrObject fieldVal then
          traverseF fieldVal
            (fun v =>
              if isObjectV v then generateTraverseF v r rs pred matchesNothing mode else false)
            false
        else !(isArrayV x)
      else
        traverseF fieldVal (fun v => generateTraverseF v r rs pred matchesNothing mode) false

/-! ## Comparison predicate builder -/

/-- The comparison operators handled by `generateComparison` (source lines
1399-1401, 1449-1455, 1597-1603). -/
inductive CompOp where
  | eq
  | lt
  | lte
  | gt
  | gte
deriving DecidableEq

/-- Truth of a comparison operator on a three-way comparison outcome. -/
def applyCompOp (op : CompOp) (o : Ordering) : Bool :=
  match op with
  | .eq => o = .eq
  | .lt => o = .lt
  | .lte => o ≠ .gt
  | .gt => o = .gt
  | .gte => o ≠ .lt

/-- Modelled from the spec: the SBE binary comparison primitives
(`EPrimBinary::eq/less/lessEq/greater/greaterEq`), which live in the
downstream VM outside this repository.  Per the source comment at lines
2007-2010, the comparison performs no type conversion and returns Nothing
for mismatched types; on same-type operands it decides by the generic BSON
order.  A Nothing operand also yields Nothing. -/
def sbeCmp (op : CompOp) (a b : Option BVal) : Option Bool :=
  match a, b with
  | some x, some y =>
    if typeRank x = typeRank y then some (applyCompOp op (bsonCompare x y)) else none
  | _, _ => none

/-- The `fillEmpty(-, false)` guard: Nothing becomes false. -/
def fillEmptyFalse : Option Bool → Bool
  | some b => b
  | none => false

/-- The comparison leaf predicate `generateComparisonExpr` (source lines
1999-2084), as the boolean function of the tested value that the generated
expression computes.  MinKey and MaxKey right-hand sides get bespoke
expressions per comparator (lines 2011-2042); a Null right-hand side first
maps missing-or-null inputs to Null (lines 2043-2052); the general case is
a `fillEmpty`-guarded primitive comparison against the constant (lines
2082-2083).  NaN right-hand sides (lines 2053-2071) do not arise in this
value model, which has no floating-point values. -/
def generateComparisonExpr (op : CompOp) (rhs : BVal) (v : Option BVal) : Bool :=
  match rhs with
  | .minKey =>
    match op with
    | .gt => fillEmptyFalse (v.map (fun x => !(typeRank x = 0)))
    | .gte => v.isSome
    | .lt => false
    | .lte => fillEmptyFalse (v.map (fun x => typeRank x = 0))
    | .eq => fillEmptyFalse (sbeCmp op v (some .minKey))
  | .maxKey =>
    match op with
    | .gt => false
    | .gte => fillEmptyFalse (v.map (fun x => typeRank x = 7))
    | .lt => fillEmptyFalse (v.map (fun x => !(typeRank x = 7)))
    | .lte => v.isSome
    | .eq => fillEmptyFalse (sbeCmp op v (some .maxKey))
  | .null =>
    fillEmptyFalse (sbeCmp op (if nullOrMissing v then some .null else v) (some .null))
  | rhs => fillEmptyFalse (sbeCmp op v (some rhs))

/-- Whether the value is an array, MinKey or MaxKey: the `checkWholeArray`
condition of `generateComparison` (source lines 875-877). -/
def checkWholeArray (rhs : BVal) : Bool :=
  match rhs with
  | .arr _ => true
  | .minKey => true
  | .maxKey => true
  | _ => false

/-- The traversal mode selected by `generateComparison` (source lines
864-879): `kArrayAndItsElements` exactly when the right-hand side is an
array, MinKey or MaxKey, else `kArrayElementsOnly`. -/
def comparisonTraversalMode (rhs : BVal) : LeafTraversalMode :=
  if checkWholeArray rhs then LeafTraversalMode.kArrayAndItsElements
  else LeafTraversalMode.kArrayElementsOnly

/-- The `matchesNothing` flag computed by `generateComparison` (source
lines 881-886): set exactly for `$eq`, `$lte` and `$gte` against a Null
literal. -/
def comparisonMatchesNothing (op : CompOp) (rhs : BVal) : Bool :=
  match rhs with
  | .null =>
    match op with
    | .eq => true
    | .lte => true
    | .gte => true
    | _ => false
  | _ => false

/-! ## The exists and size leaf predicates -/

/-- The `$exists` leaf predicate (source lines 1403-1420): the `exists`
SBE function on the resolved value. -/
def existsPredicate (v : Option BVal) : Bool :=
  v.isSome

/-- SBE `getArraySize`: Nothing unless the value is an array. -/
def getArraySize : Option BVal → Option Int
  | some (.arr es) => some es.length
  | _ => none

/-- The `$size` leaf predicate built by `generateArraySize` for a
non-negative literal size (source lines 840-845):
`fillEmpty(getArraySize(v) == size, false)`. -/
def arraySizePredicate (size : Int) (v : Option BVal) : Bool :=
  fillEmptyFalse ((getArraySize v).map (fun k => k = size))

/-- The front half of `generateArraySize` (source lines 824-838) for the
non-parameterized case: a negative literal size short-circuits to the
constant false (`generateAlwaysBoolean(context, false)`) and no predicate
or path traversal is generated at all; otherwise the leaf predicate
`arraySizePredicate` is produced and handed to the path traversal
generator in `kDoNotTraverseLeaf` mode. -/
def generateArraySize (size : Int) : Option (Option BVal → Bool) :=
  if size < 0 then none else some (arraySizePredicate size)

/-! ## The match expression fragment -/

/-- The embedded fragment of the MatchExpression tree.  Leaf paths are
non-empty: a leaf carries its first path component `f` and the remaining
components `ps`.  The fragment covers the path/comparison/logical core of
the translation unit: always-true/false (lines 1243-1249), the five
comparison operators (lines 1399-1401, 1449-1455, 1597-1603), `$exists`
(lines 1403-1423), `$size` (lines 1661-1663), and the logical operators
`$and`/`$or`/`$nor`/`$not` (lines 1251-1272, 1620-1647).  The remaining
leaf operators lowered by this translation unit (`$in`, `$mod`, `$regex`,
bit tests, `$type`, `$elemMatch`, `$expr`, `$where`) share the same
traversal skeleton via `generatePredicateImpl` and are not embedded.  The
last four constructors are representative kinds this compiler does *not*
lower: geo kinds and the internal-schema family, for which the pre-visitor
calls `unsupportedExpression` (source lines 1088-1093, 1101-1160,
1193-1200), and the `$text` kinds, for which the pre-visitor hits
`MONGO_UNREACHABLE` instead (source lines 1179-1191).  `internalSchema`
stands for the seventeen `InternalSchema*` visits, which all behave
identically. -/
inductive MatchPred where
  | alwaysTrue
  | alwaysFalse
  | cmp (f : String) (ps : List String) (op : CompOp) (rhs : BVal)
  | existsPred (f : String) (ps : List String)
  | sizePred (f : String) (ps : List String) (size : Int)
  | andPred (cs : List MatchPred)
  | orPred (cs : List MatchPred)
  | norPred (cs : List MatchPred)
  | notPred (c : MatchPred)
  | geoPred
  | geoNearPred
  | internalSchema
  | textPred
  | textNoOpPred

mutual
/-- The boolean computed by the SBE plan that the visitors produce for a
match expression, on a given input document.  Leaves go through the
expression-based traversal (`generateTraverseF` is used whenever a
`makePredicateExpr` is available and the state helper carries no value,
source lines 748-765, which is the case for every leaf in this fragment
with `trackIndex = false`).  Logical nodes compose children's results the
way `buildLogicalExpression` (lines 926-959) and the NOT/NOR post-visits
(lines 1620-1643) do: `$and`/`$or` fold their children with the
short-circuiting combinator — whose observable result is conjunction
resp. disjunction — a childless `$and` (`$or`) is the constant true
(false) via `generateAlwaysBoolean` (lines 929-932), `$nor` is the
negation of the `$or` build (lines 1620-1632), and `$not` negates its
child (lines 1634-1643).  Kinds this compiler does not lower never reach
evaluation (compilation fails first); their value here is an arbitrary
false. -/
def sbeEvalPred (p : MatchPred) (d : BVal) : Bool :=
  match p with
  | .alwaysTrue => true
  | .alwaysFalse => false
  | .cmp f ps op rhs =>
    generateTraverseF (some d) f ps (generateComparisonExpr op rhs)
      (comparisonMatchesNothing op rhs) (comparisonTraversalMode rhs)
  | .existsPred f ps =>
    generateTraverseF (some d) f ps existsPredicate false
      LeafTraversalMode.kDoNotTraverseLeaf
  | .sizePred f ps size =>
    match generateArraySize size with
    | none => false
    | some pred =>
      generateTraverseF (some d) f ps pred false LeafTraversalMode.kDoNotTraverseLeaf
  | .andPred cs => sbeEvalAll cs d
  | .orPred cs => sbeEvalAny cs d
  | .norPred cs => !(sbeEvalAny cs d)
  | .notPred c => !(sbeEvalPred c d)
  | _ => false

/-- Conjunction of the children's results, in child order. -/
def sbeEvalAll (cs : List MatchPred) (d : BVal) : Bool :=
  match cs with
  | [] => true
  | c :: rest => sbeEvalPred c d && sbeEvalAll rest d

/-- Disjunction of the children's results, in child order. -/
def sbeEvalAny (cs : List MatchPred) (d : BVal) : Bool :=
  match cs with
  | [] => false
  | c :: rest => sbeEvalPred c d || sbeEvalAny rest d
end

/-! ## The reference interpreter of MQL predicate semantics

These definitions follow the specification's words (sections 3, 4.1, 4.3
and 8), not the compiler's code: they are the oracle that the compiled
semantics is compared against. -/

/-- Modelled from the spec: reference meaning of a comparison leaf on a
single (possibly missing) value, per the spec's predicate-builder table
(section 4.3): a null right-hand side matches missing/undefined/null
inputs, and only for the self-inclusive operators; MinKey and MaxKey get
bespoke truth tables per comparator (MinKey is below every present value
and MaxKey above every present value); any other right-hand side matches
only a present value of the same canonical type that stands in the stated
BSON order to it. -/
def refComparison (op : CompOp) (rhs : BVal) (v : Option BVal) : Bool :=
  match rhs with
  | .null =>
    nullOrMissing v &&
      match op with
      | .eq => true
      | .lte => true
      | .gte => true
      | _ => false
  | .minKey =>
    match op, v with
    | .eq, some .minKey => true
    | .lte, some .minKey => true
    | .gt, some x => !(typeRank x = 0)
    | .gte, some _ => true
    | _, _ => false
  | .maxKey =>
    match op, v with
    | .eq, some .maxKey => true
    | .gte, some .maxKey => true
    | .lt, some x => !(typeRank x = 7)
    | .lte, some _ => true
    | _, _ => false
  | rhs =>
    match v with
    | some x => typeRank x = typeRank rhs && applyCompOp op (bsonCompare x rhs)
    | none => false

/-- Modelled from the spec: reference meaning of a `$size` leaf — the
value is an array of exactly the stated length (section 4.3; a negative
stated length can never equal an array length, which is the spec's
"short-circuits to constant false"). -/
def refArraySize (size : Int) (v : Option BVal) : Bool :=
  match v with
  | some (.arr es) => (es.length : Int) = size
  | _ => false

/-- Modelled from the spec: the reference treatment of the final path
component (spec section 3, "Traversal Mode"): under no-leaf-traversal the
predicate applies once to whatever value was found; otherwise an array is
matched if any element matches, and additionally if the array matches as a
whole when whole-array matching is on; a non-array (or missing) value is
matched if the predicate accepts it. -/
def refLeaf (pred : Option BVal → Bool) (mode : LeafTraversalMode) (w : Option BVal) : Bool :=
  match mode with
  | .kDoNotTraverseLeaf => pred w
  | .kArrayElementsOnly =>
    match w with
    | some (.arr es) => es.any (fun e => pred (some e))
    | _ => pred w
  | .kArrayAndItsElements =>
    match w with
    | some (.arr es) => es.any (fun e => pred (some e)) || pred (some (.arr es))
    | _ => pred w

/-- Modelled from the spec: the reference MQL path-traversal semantics
(spec sections 2, 4.1 "error/edge policy" and the glossary): to match a
dotted path against a value, read the current component's field; at the
last component apply the leaf rule; at an inner component, an array value
branches into exactly those elements that are objects (a non-object array
element never produces a match, and is not treated as a missing leaf),
while any other value — object, scalar or missing — continues down the
remaining path, scalars and missing values reading all further fields as
missing.  The trailing-empty-component quirk (spec section 3: a path
ending in "." ) redirects the second-to-last component's value: an array
is used as-is, anything else re-reads the empty-named sub-field. -/
def refTraverse (pred : Option BVal → Bool) (f : String) (rest : List String)
    (x : Option BVal) (mode : LeafTraversalMode) : Bool :=
  match rest with
  | [] => refLeaf pred mode (getField x f)
  | r :: rs =>
    if rs = [] ∧ r = "" then refLeaf pred mode (emptyNameRedirect (getField x f))
    else
      match getField x f with
      | some (.arr es) =>
        es.any (fun e => isObjectV (some e) && refTraverse pred r rs (some e) mode)
      | w => refTraverse pred r rs w mode

mutual
/-- Modelled from the spec: the reference interpreter of MQL predicate
semantics (the oracle of spec section 8): logical operators are boolean
composition over the children, leaves traverse their path with the leaf
predicate and traversal mode stated in the spec's table (section 4.3).
Kinds this compiler does not lower have no reference meaning here and are
arbitrarily false; every claim comparing compiled and reference semantics
excludes them. -/
def refMatch (p : MatchPred) (d : BVal) : Bool :=
  match p with
  | .alwaysTrue => true
  | .alwaysFalse => false
  | .cmp f ps op rhs =>
    refTraverse (refComparison op rhs) f ps (some d) (comparisonTraversalMode rhs)
  | .existsPred f ps =>
    refTraverse existsPredicate f ps (some d) LeafTraversalMode.kDoNotTraverseLeaf
  | .sizePred f ps size =>
    refTraverse (refArraySize size) f ps (some d) LeafTraversalMode.kDoNotTraverseLeaf
  | .andPred cs => refMatchAll cs d
  | .orPred cs => refMatchAny cs d
  | .norPred cs => !(refMatchAny cs d)
  | .notPred c => !(refMatch c d)
  | _ => false

/-- All children match. -/
def refMatchAll (cs : List MatchPred) (d : BVal) : Bool :=
  match cs with
  | [] => true
  | c :: rest => refMatch c d && refMatchAll rest d

/-- Some child matches. -/
def refMatchAny (cs : List MatchPred) (d : BVal) : Bool :=
  match cs with
  | [] => false
  | c :: rest => refMatch c d || refMatchAny rest d
end

/-! ## The compilation pipeline: generateFilter -/

/-- The ways translation can abort.  `unsupportedExpr` is the distinct
capability-gap signal — the `tasserted(4822878, "Unsupported match
expression in SBE stage builder ...")` raised by
`MatchExpressionPreVisitor::unsupportedExpression` (source lines
1202-1210) — which the upper layer is expected to avoid/handle by routing
the query to the classic engine.  `unreachableHit` is a
`MONGO_UNREACHABLE` invariant failure, raised by the `$text` pre-visits
(source lines 1179-1191), which is an ordinary fatal invariant violation,
not the capability-gap signal.  `invariantViolation` carries the numeric
diagnostic code of a `tassert` on the caller's contract (source lines
1897-1900, 1914-1917, 139-141).  `indexTrackingNotModelled` marks the one
branch of the driver that this embedding does not descend into: the
`trackIndex = true` lowering through `IndexStateHelper`, whose translation
lives outside this source file; no claim is settled through that
branch. -/
inductive CompileError where
  | unsupportedExpr
  | unreachableHit
  | invariantViolation (code : Nat)
  | indexTrackingNotModelled
deriving DecidableEq

mutual
/-- The pre-visitor's capability check (`MatchExpressionPreVisitor`,
source lines 1026-1213), as the walk over the tree that either reaches
every node without firing an assertion or aborts at the first offending
node: geo and internal-schema kinds call `unsupportedExpression`
(tasserted 4822878), the `$text` kinds hit `MONGO_UNREACHABLE`, and every
kind in the embedded fragment passes. -/
def checkSupported (p : MatchPred) : Except CompileError Unit :=
  match p with
  | .geoPred => .error .unsupportedExpr
  | .geoNearPred => .error .unsupportedExpr
  | .internalSchema => .error .unsupportedExpr
  | .textPred => .error .unreachableHit
  | .textNoOpPred => .error .unreachableHit
  | .andPred cs => checkSupportedList cs
  | .orPred cs => checkSupportedList cs
  | .norPred cs => checkSupportedList cs
  | .notPred c => checkSupported c
  | _ => .ok ()

/-- Walk the children in order; the first assertion aborts the walk. -/
def checkSupportedList (cs : List MatchPred) : Except CompileError Unit :=
  match cs with
  | [] => .ok ()
  | c :: rest =>
    match checkSupported c with
    | .ok _ => checkSupportedList rest
    | .error e => .error e
end

/-- A dataflow stage, at the granularity the settled claims observe: the
caller's input stage (`base`), and a filter stage gating the stream on a
boolean of the current document (`makeFilter<false>`). -/
inductive Stage where
  | base
  | filter (f : BVal → Bool) (src : Stage)

/-- Whether a stage admits (returns ADVANCED for) a document that its
base stage produced: a filter admits it when the source admits it and the
predicate holds. -/
def admits : Stage → BVal → Bool
  | .base, _ => true
  | .filter f src, d => admits src d && f d

/-- The top-level `$and` optimization (pre/in/post visits of
`AndMatchExpression` for the node recorded as `topLevelAnd`, source lines
1033-1052, 1251-1269, 1743-1754): every child is evaluated within the one
shared frame and its boolean is immediately turned into a filter stacked
directly onto the shared stage, child after child in original order, so
the whole top-level `$and` becomes a linear chain of filters and no
short-circuiting union tree is built. -/
def lowerTopLevelAnd (cs : List MatchPred) (stage : Stage) : Stage :=
  match cs with
  | [] => stage
  | c :: rest => lowerTopLevelAnd rest (.filter (sbeEvalPred c) stage)

/-- The number of children up to which the top-level `$and` optimization
applies (`kMaxChildrenForTopLevelAndOptimization`, source line 84). -/
def kMaxChildrenForTopLevelAndOptimization : Nat := 25

/-- Whether the root is recorded as `topLevelAnd` (source lines 146-151):
it is an `$and` with at most `kMaxChildrenForTopLevelAndOptimization`
children. -/
def isTopLevelAnd (root : MatchPred) : Bool :=
  match root with
  | .andPred cs => cs.length ≤ kMaxChildrenForTopLevelAndOptimization
  | _ => false

/-- The driver `generateFilter` (source lines 1887-1936), embedded over
the stage/argument observables the claims quantify over.  In order:

  1. `tassert(7097206)`: index tracking is not supported for filters over
     index scans (lines 1897-1900);
  2. the early return for a childless `$and` root: the caller's stage is
     handed back unchanged and no output slot is produced (lines
     1902-1906);
  3. when SBE is not fully enabled, the classic-matcher fallback wraps the
     stage in a single filter that runs the `MatchExpression`'s own
     (classic) evaluation — the reference semantics — after
     `tassert(6681403)` and `tassert(7097207)` (lines 1908-1923);
  4. the visitor context is built (`tassert(7097201)`, lines 139-141) and
     the tree walked, firing the pre-visitor capability check;
  5. with the boolean state helper (`trackIndex = false`), the walk leaves
     one expression which `done()` forces into a filter on the stage
     (lines 154-181): a single filter for a general root, or the linear
     filter chain for a recognised top-level `$and`.

`slots` abstracts to whether the caller passed a kField slot map; the
embedded lowering itself is the `inputSlot` configuration. -/
def generateFilter (root : MatchPred) (stage : Stage) (inputSlot : Option Nat)
    (hasSlots : Bool) (sbeFull : Bool) (isFilterOverIxscan : Bool) (trackIndex : Bool) :
    Except CompileError (Option Nat × Stage) :=
  if isFilterOverIxscan && trackIndex then .error (.invariantViolation 7097206)
  else
    match root with
    | .andPred [] => .ok (none, stage)
    | root =>
      if !sbeFull then
        if trackIndex then .error (.invariantViolation 6681403)
        else if !(inputSlot.isSome || isFilterOverIxscan) then
          .error (.invariantViolation 7097207)
        else .ok (none, .filter (refMatch root) stage)
      else if !(inputSlot.isSome || hasSlots) then .error (.invariantViolation 7097201)
      else
        match checkSupported root with
        | .error e => .error e
        | .ok _ =>
          if trackIndex then .error .indexTrackingNotModelled
          else
            match root with
            | .andPred cs =>
              if cs.length ≤ kMaxChildrenForTopLevelAndOptimization then
                .ok (none, lowerTopLevelAnd cs stage)
              else .ok (none, .filter (sbeEvalPred root) stage)
            | root => .ok (none, .filter (sbeEvalPred root) stage)

/-- The observable result of compiling `p` in the standard configuration
(whole-document input slot, SBE fully enabled, no index scan, no index
tracking) over a bare input stage, then running the produced plan on `d`:
`some b` when compilation succeeds and the plan admits (`b = true`) or
rejects (`b = false`) the document, `none` when compilation aborts. -/
def sbeMatches (p : MatchPred) (d : BVal) : Option Bool :=
  match generateFilter p Stage.base (some 0) false true false false with
  | .ok (_, st) => some (admits st d)
  | .error _ => none

/-! ## The indexed filter state and the NOT/NOR composition -/

/-- Modelled from the spec: the state produced under the index-tracking
policy (spec section 3, "State Representation"): a boolean paired with an
optional auxiliary value — the matched array element's position, absent
when there was no array or no match.  The state helpers themselves live
outside this source file; the NOT/NOR composition below is from this
file. -/
abbrev FilterState := Bool × Option Nat

/-- Modelled from the spec: `FilterStateHelper::makeState` applied to a
plain boolean injects it into state form, carrying no auxiliary value. -/
def makeState (b : Bool) : FilterState := (b, none)

/-- Modelled from the spec: `FilterStateHelper::getBool` extracts the
boolean component of a state. -/
def getBool (s : FilterState) : Bool := s.1

/-- Modelled from the spec: the observable state of the short-circuiting
`$or` combinator under index tracking (spec section 4.4): branches are
tried in order and the first branch whose boolean is true terminates
evaluation with that branch's state; if none is true the result is a
plain false state. -/
def orCombineStates : List FilterState → FilterState
  | [] => (false, none)
  | s :: rest => if getBool s then s else orCombineStates rest

/-- The `$not` post-visit (source lines 1634-1643): the child's state is
reduced to its boolean, negated, and re-injected with `makeState` — so
any auxiliary index value carried by the child's state is discarded. -/
def notVisitState (s : FilterState) : FilterState :=
  makeState (!(getBool s))

/-- The `$nor` post-visit (source lines 1620-1632): first the `$or` of
the children is built from the stack, then its boolean is negated and
re-injected with `makeState`, discarding any index value set by
expressions below the `$nor`. -/
def norVisitState (cs : List FilterState) : FilterState :=
  makeState (!(getBool (orCombineStates cs)))

/-! ## The short-circuiting logical combinator, with evaluation counting -/

/-- Modelled from the spec: the evaluation behaviour of the
short-circuiting `$or` built by `generateShortCircuitingLogicalOp` (the
function itself lives outside this source file; `buildLogicalExpression`
at source lines 926-959 prepares its branches).  Branches are tried in
order and the first true branch terminates evaluation (spec section 4.4).
The result is paired with the number of branches actually evaluated, so
that early termination is an observable of the model. -/
def shortCircuitOrTrace : List Bool → Bool × Nat
  | [] => (false, 0)
  | b :: rest =>
    if b then (true, 1)
    else
      let r := shortCircuitOrTrace rest
      (r.1, r.2 + 1)

/-- Modelled from the spec: the evaluation behaviour of the
short-circuiting `$and`: branches are tried in order and the first false
branch terminates evaluation as overall false (spec section 4.4), paired
with the number of branches actually evaluated. -/
def shortCircuitAndTrace : List Bool → Bool × Nat
  | [] => (true, 0)
  | b :: rest =>
    if b then
      let r := shortCircuitAndTrace rest
      (r.1, r.2 + 1)
    else (false, 1)

/-- The branch extraction of `buildLogicalExpression` (source lines
939-946): the children's outputs are popped off the evaluation stack —
on which they sit in reverse order, the last-visited child on top — and
reversed, so the combinator receives them in original child order. -/
def extractBranches (stack : List Bool) (numChildren : Nat) : List Bool :=
  (stack.take numChildren).reverse

/-! ## Equivalence of the compiled plan and the reference interpreter -/

theorem listAnyCongr {α : Type} (l : List α) (f g : α → Bool)
    (h : ∀ a ∈ l, f a = g a) : l.any f = l.any g := by
  induction l with
  | nil => rfl
  | cons a rest ih =>
    simp only [List.any_cons, h a (List.mem_cons_self a rest)]
    rw [ih (fun b hb => h b (List.mem_cons_of_mem a hb))]

theorem getField_nonobject (x : Option BVal) (f : String) (hx : isObjectV x = false) :
    getField x f = none := by
  cases x with
  | none => rfl
  | some v => cases v <;> first | rfl | (exact absurd hx (by simp [isObjectV]))

theorem generateTraverseFLeaf_none (pred : Option BVal → Bool) (mode : LeafTraversalMode) :
    generateTraverseFLeaf none pred mode = pred none := by
  cases mode <;> rfl

theorem refLeaf_none (pred : Option BVal → Bool) (mode : LeafTraversalMode) :
    refLeaf pred mode none = pred none := by
  cases mode <;> rfl

theorem generateTraverseFLeaf_eq_refLeaf (w : Option BVal) (pred : Option BVal → Bool)
    (mode : LeafTraversalMode) : generateTraverseFLeaf w pred mode = refLeaf pred mode w := by
  cases mode with
  | kDoNotTraverseLeaf => rfl
  | kArrayElementsOnly =>
    cases w with
    | none => rfl
    | some v => cases v <;> simp [generateTraverseFLeaf, refLeaf, traverseF]
  | kArrayAndItsElements =>
    cases w with
    | none => rfl
    | some v => cases v <;> simp [generateTraverseFLeaf, refLeaf, traverseF]

theorem generateComparisonExpr_none (op : CompOp) (rhs : BVal) :
    generateComparisonExpr op rhs none = comparisonMatchesNothing op rhs := by
  cases rhs <;> cases op <;> rfl

theorem generateComparisonExpr_eq_refComparison (op : CompOp) (rhs : BVal) (v : Option BVal) :
    generateComparisonExpr op rhs v = refComparison op rhs v := by
  cases rhs <;> cases op <;> (cases v with
    | none => rfl
    | some x => cases x <;> rfl)

theorem generateTraverseF_nonobject (pred : Option BVal → Bool) (mode : LeafTraversalMode)
    (hpn : pred none = false) :
    ∀ (rest : List String) (f : String) (x : Option BVal), isObjectV x = false →
      generateTraverseF x f rest pred false mode = false := by
  intro rest
  induction rest with
  | nil =>
    intro f x hx
    simp only [generateTraverseF, getField_nonobject x f hx, generateTraverseFLeaf_none, hpn]
  | cons r rs ih =>
    intro f x hx
    simp only [generateTraverseF, getField_nonobject x f hx]
    by_cases hempty : rs = [] ∧ r = ""
    · simp only [if_pos hempty, emptyNameRedirect, isArrayV, getField, if_neg,
        Bool.false_eq_true, if_false, generateTraverseFLeaf_none, hpn]
    · simp only [if_neg hempty, Bool.false_eq_true, if_false, traverseF]
      exact ih r none rfl

theorem refTraverse_nonobject (pred : Option BVal → Bool) (mode : LeafTraversalMode) :
    ∀ (rest : List String) (f : String) (x : Option BVal), isObjectV x = false →
      refTraverse pred f rest x mode = pred none := by
  intro rest
  induction rest with
  | nil =>
    intro f x hx
    simp only [refTraverse, getField_nonobject x f hx, refLeaf_none]
  | cons r rs ih =>
    intro f x hx
    simp only [refTraverse, getField_nonobject x f hx]
    by_cases hempty : rs = [] ∧ r = ""
    · simp only [if_pos hempty, emptyNameRedirect, isArrayV, getField, Bool.false_eq_true,
        if_false, refLeaf_none]
    · simp only [if_neg hempty]
      exact ih r none rfl

theorem generateTraverseF_eq_refTraverse (pred : Option BVal → Bool) (mode : LeafTraversalMode)
    (mn : Bool) (hmn : pred none = mn) :
    ∀ (rest : List String) (f : String) (x : Option BVal), isArrayV x = false →
      generateTraverseF x f rest pred mn mode = refTraverse pred f rest x mode := by
  intro rest
  induction rest with
  | nil =>
    intro f x hx
    simp only [generateTraverseF, refTraverse, generateTraverseFLeaf_eq_refLeaf]
  | cons r rs ih =>
    intro f x hx
    by_cases hempty : rs = [] ∧ r = ""
    · simp only [generateTraverseF, refTraverse, if_pos hempty,
        generateTraverseFLeaf_eq_refLeaf]
    · simp only [generateTraverseF, refTraverse, if_neg hempty]
      cases mn with
      | false =>
        simp only [Bool.false_eq_true, if_false]
        rcases hw : getField x f with _ | v
        · simpa [traverseF] using ih r none rfl
        · cases v with
          | arr es =>
            simp only [traverseF, Bool.false_and, Bool.or_false]
            refine listAnyCongr es _ _ (fun e _ => ?_)
            cases e <;>
              first
              | (simp only [isObjectV, Bool.true_and]; exact ih r _ rfl)
              | (simp only [isObjectV, Bool.false_and];
                 exact generateTraverseF_nonobject pred mode hmn rs r _ rfl)
          | obj fs => simpa [traverseF] using ih r (some (.obj fs)) rfl
          | null => simpa [traverseF] using ih r (some .null) rfl
          | int n => simpa [traverseF] using ih r (some (.int n)) rfl
          | str s => simpa [traverseF] using ih r (some (.str s)) rfl
          | bool b => simpa [traverseF] using ih r (some (.bool b)) rfl
          | minKey => simpa [traverseF] using ih r (some .minKey) rfl
          | maxKey => simpa [traverseF] using ih r (some .maxKey) rfl
      | true =>
        simp only [if_true]
        rcases hw : getField x f with _ | v
        · simp only [typeMatchArrayOrObject, Bool.false_eq_true, if_false]
          rw [refTraverse_nonobject pred mode rs r none rfl, hmn]
          change (!(isArrayV x)) = true
          rw [hx]
          rfl
        · cases v with
          | arr es =>
            simp only [typeMatchArrayOrObject, if_true, traverseF, Bool.false_and,
              Bool.or_false]
            refine listAnyCongr es _ _ (fun e _ => ?_)
            cases e <;>
              simp only [isObjectV, Bool.true_and, Bool.false_and, Bool.false_eq_true,
                if_true, if_false]
            exact ih r _ rfl
          | obj fs =>
            simp only [typeMatchArrayOrObject, if_true, traverseF, isObjectV]
            exact ih r (some (.obj fs)) rfl
          | null =>
            simp only [typeMatchArrayOrObject, Bool.false_eq_true, if_false, hx,
              Bool.not_false]
            rw [refTraverse_nonobject pred mode rs r (some .null) rfl, hmn]
          | int n =>
            simp only [typeMatchArrayOrObject, Bool.false_eq_true, if_false, hx,
              Bool.not_false]
            rw [refTraverse_nonobject pred mode rs r (some (.int n)) rfl, hmn]
          | str s =>
            simp only [typeMatchArrayOrObject, Bool.false_eq_true, if_false, hx,
              Bool.not_false]
            rw [refTraverse_nonobject pred mode rs r (some (.str s)) rfl, hmn]
          | bool b =>
            simp only [typeMatchArrayOrObject, Bool.false_eq_true, if_false, hx,
              Bool.not_false]
            rw [refTraverse_nonobject pred mode rs r (some (.bool b)) rfl, hmn]
          | minKey =>
            simp only [typeMatchArrayOrObject, Bool.false_eq_true, if_false, hx,
              Bool.not_false]
            rw [refTraverse_nonobject pred mode rs r (some .minKey) rfl, hmn]
          | maxKey =>
            simp only [typeMatchArrayOrObject, Bool.false_eq_true, if_false, hx,
              Bool.not_false]
            rw [refTraverse_nonobject pred mode rs r (some .maxKey) rfl, hmn]

theorem refLeaf_constFalse (pred : Option BVal → Bool) (mode : LeafTraversalMode)
    (hp : ∀ v, pred v = false) (w : Option BVal) : refLeaf pred mode w = false := by
  cases mode with
  | kDoNotTraverseLeaf => exact hp w
  | kArrayElementsOnly =>
    cases w with
    | none => exact hp none
    | some v => cases v <;> simp [refLeaf, hp]
  | kArrayAndItsElements =>
    cases w with
    | none => exact hp none
    | some v => cases v <;> simp [refLeaf, hp]

theorem refTraverse_constFalse (pred : Option BVal → Bool) (mode : LeafTraversalMode)
    (hp : ∀ v, pred v = false) :
    ∀ (rest : List String) (f : String) (x : Option BVal),
      refTraverse pred f rest x mode = false := by
  intro rest
  induction rest with
  | nil =>
    intro f x
    simp only [refTraverse, refLeaf_constFalse pred mode hp]
  | cons r rs ih =>
    intro f x
    simp only [refTraverse]
    by_cases hempty : rs = [] ∧ r = ""
    · simp only [if_pos hempty, refLeaf_constFalse pred mode hp]
    · simp only [if_neg hempty]
      rcases getField x f with _ | v
      · exact ih r none
      · cases v <;> simp [ih]

theorem refArraySize_neg (size : Int) (hs : size < 0) (v : Option BVal) :
    refArraySize size v = false := by
  cases v with
  | none => rfl
  | some x =>
    cases x <;> try rfl
    rename_i es
    simp only [refArraySize, decide_eq_false_iff_not]
    omega

theorem arraySizePredicate_eq_refArraySize (size : Int) (v : Option BVal) :
    arraySizePredicate size v = refArraySize size v := by
  cases v with
  | none => rfl
  | some x => cases x <;> rfl

mutual
theorem sbeEvalPred_eq_refMatch (p : MatchPred) (d : BVal) (hd : isArrayV (some d) = false) :
    sbeEvalPred p d = refMatch p d := by
  cases p with
  | cmp f ps op rhs =>
    simp only [sbeEvalPred, refMatch]
    rw [generateTraverseF_eq_refTraverse (generateComparisonExpr op rhs)
      (comparisonTraversalMode rhs) (comparisonMatchesNothing op rhs)
      (generateComparisonExpr_none op rhs) ps f (some d) hd]
    rw [funext (generateComparisonExpr_eq_refComparison op rhs)]
  | existsPred f ps =>
    simp only [sbeEvalPred, refMatch]
    exact generateTraverseF_eq_refTraverse existsPredicate
      LeafTraversalMode.kDoNotTraverseLeaf false rfl ps f (some d) hd
  | sizePred f ps size =>
    simp only [sbeEvalPred, refMatch]
    by_cases hs : size < 0
    · simp only [generateArraySize, if_pos hs]
      rw [refTraverse_constFalse (refArraySize size)
        LeafTraversalMode.kDoNotTraverseLeaf (refArraySize_neg size hs) ps f (some d)]
    · simp only [generateArraySize, if_neg hs]
      rw [generateTraverseF_eq_refTraverse (arraySizePredicate size)
        LeafTraversalMode.kDoNotTraverseLeaf false rfl ps f (some d) hd]
      rw [funext (arraySizePredicate_eq_refArraySize size)]
  | andPred cs =>
    simp only [sbeEvalPred, refMatch]
    exact sbeEvalAll_eq_refMatchAll cs d hd
  | orPred cs =>
    simp only [sbeEvalPred, refMatch]
    exact sbeEvalAny_eq_refMatchAny cs d hd
  | norPred cs =>
    simp only [sbeEvalPred, refMatch]
    rw [sbeEvalAny_eq_refMatchAny cs d hd]
  | notPred c =>
    simp only [sbeEvalPred, refMatch]
    rw [sbeEvalPred_eq_refMatch c d hd]
  | _ => rfl

theorem sbeEvalAll_eq_refMatchAll (cs : List MatchPred) (d : BVal)
    (hd : isArrayV (some d) = false) : sbeEvalAll cs d = refMatchAll cs d := by
  cases cs with
  | nil => rfl
  | cons c rest =>
    simp only [sbeEvalAll, refMatchAll]
    rw [sbeEvalPred_eq_refMatch c d hd, sbeEvalAll_eq_refMatchAll rest d hd]

theorem sbeEvalAny_eq_refMatchAny (cs : List MatchPred) (d : BVal)
    (hd : isArrayV (some d) = false) : sbeEvalAny cs d = refMatchAny cs d := by
  cases cs with
  | nil => rfl
  | cons c rest =>
    simp only [sbeEvalAny, refMatchAny]
    rw [sbeEvalPred_eq_refMatch c d hd, sbeEvalAny_eq_refMatchAny rest d hd]
end

theorem admits_lowerTopLevelAnd (cs : List MatchPred) :
    ∀ (stage : Stage) (d : BVal),
      admits (lowerTopLevelAnd cs stage) d = (admits stage d && sbeEvalAll cs d) := by
  induction cs with
  | nil =>
    intro stage d
    simp [lowerTopLevelAnd, sbeEvalAll]
  | cons c rest ih =>
    intro stage d
    simp only [lowerTopLevelAnd, sbeEvalAll]
    rw [ih (.filter (sbeEvalPred c) stage) d]
    simp only [admits, Bool.and_assoc]

theorem sbeMatches_eq_sbeEvalPred (p : MatchPred) (d : BVal)
    (hsup : checkSupported p = Except.ok ()) :
    sbeMatches p d = some (sbeEvalPred p d) := by
  cases p with
  | andPred cs =>
    cases cs with
    | nil => rfl
    | cons c rest =>
      simp only [sbeMatches, generateFilter, Bool.false_and, Bool.false_eq_true, if_false,
        Option.isSome_some, Bool.true_or, Bool.not_true, hsup]
      by_cases hlen : (c :: rest).length ≤ kMaxChildrenForTopLevelAndOptimization
      · simp only [if_pos hlen]
        rw [admits_lowerTopLevelAnd (c :: rest) Stage.base d]
        simp only [admits, Bool.true_and, sbeEvalPred]
      · simp only [if_neg hlen, admits, Bool.true_and]
  | geoPred => exact absurd hsup (by simp [checkSupported])
  | geoNearPred => exact absurd hsup (by simp [checkSupported])
  | internalSchema => exact absurd hsup (by simp [checkSupported])
  | textPred => exact absurd hsup (by simp [checkSupported])
  | textNoOpPred => exact absurd hsup (by simp [checkSupported])
  | _ =>
    simp only [sbeMatches, generateFilter, Bool.false_and, Bool.false_eq_true, if_false,
      Option.isSome_some, Bool.true_or, Bool.not_true, hsup, admits, Bool.true_and]

/-- C1: for every predicate tree in the embedded fragment that this
compiler lowers (the pre-visitor capability check passes) and every input
document, compiling the tree with `generateFilter` in the standard
configuration and running the produced plan admits the document exactly
when the reference interpreter of MQL predicate semantics accepts it. -/
theorem c1_compiled_equals_reference (p : MatchPred) (fields : List (String × BVal))
    (hsup : checkSupported p = Except.ok ()) :
    sbeMatches p (BVal.obj fields) = some (refMatch p (BVal.obj fields)) := by
  rw [sbeMatches_eq_sbeEvalPred p (BVal.obj fields) hsup,
    sbeEvalPred_eq_refMatch p (BVal.obj fields) rfl]

/-- Witness for C1 at a concrete supported tree and document: the filter
`{a: {$lte: null}}` compiled over the empty document agrees with the
reference interpreter (both accept). -/
theorem c1_compiled_equals_reference_witness :
    checkSupported (MatchPred.cmp "a" [] CompOp.lte BVal.null) = Except.ok () ∧
      sbeMatches (MatchPred.cmp "a" [] CompOp.lte BVal.null) (BVal.obj []) =
        some (refMatch (MatchPred.cmp "a" [] CompOp.lte BVal.null) (BVal.obj [])) :=
  ⟨rfl, c1_compiled_equals_reference (MatchPred.cmp "a" [] CompOp.lte BVal.null) [] rfl⟩

/-- C2: the top-level `$and` optimization — which applies only to a root
`$and` with at most `kMaxChildrenForTopLevelAndOptimization` (25) children
and lowers the conjunction as a linear chain of filter stages instead of
the general short-circuiting lowering — is observationally transparent:
for every input document, the filter chain admits the document exactly
when a single filter over the general short-circuiting `$and` expression
does. -/
theorem c2_top_level_and_transparent (cs : List MatchPred) (stage : Stage) (d : BVal)
    (_hlen : cs.length ≤ kMaxChildrenForTopLevelAndOptimization) :
    admits (lowerTopLevelAnd cs stage) d =
      admits (Stage.filter (sbeEvalPred (MatchPred.andPred cs)) stage) d := by
  rw [admits_lowerTopLevelAnd cs stage d]
  simp only [admits, sbeEvalPred]

/-- Witness for C2: a concrete two-child conjunction `{a: 1, b: 2}` over
a concrete document, with the child-count ceiling hypothesis
discharged. -/
theorem c2_top_level_and_transparent_witness :
    ([MatchPred.cmp "a" [] CompOp.eq (BVal.int 1),
      MatchPred.cmp "b" [] CompOp.eq (BVal.int 2)].length ≤
        kMaxChildrenForTopLevelAndOptimization) ∧
      admits
        (lowerTopLevelAnd
          [MatchPred.cmp "a" [] CompOp.eq (BVal.int 1),
            MatchPred.cmp "b" [] CompOp.eq (BVal.int 2)] Stage.base)
        (BVal.obj [("a", BVal.int 1), ("b", BVal.int 2)]) =
      admits
        (Stage.filter
          (sbeEvalPred
            (MatchPred.andPred
              [MatchPred.cmp "a" [] CompOp.eq (BVal.int 1),
                MatchPred.cmp "b" [] CompOp.eq (BVal.int 2)])) Stage.base)
        (BVal.obj [("a", BVal.int 1), ("b", BVal.int 2)]) :=
  ⟨by decide,
    c2_top_level_and_transparent
      [MatchPred.cmp "a" [] CompOp.eq (BVal.int 1),
        MatchPred.cmp "b" [] CompOp.eq (BVal.int 2)] Stage.base
      (BVal.obj [("a", BVal.int 1), ("b", BVal.int 2)]) (by decide)⟩

/-- C3: for `$eq`, `$lte` and `$gte` comparisons against a Null literal, a
field entirely absent from the document behaves identically to that field
being explicitly null (the compiled filter accepts in both cases), and
this equivalence never applies to `$exists` (absent is rejected, explicit
null accepted); concretely, the compiled `{a: {$lte: null}}` accepts
`{a: null}`, accepts the empty document, and rejects `{a: 5}`. -/
theorem c3_null_missing_equivalence (op : CompOp)
    (hop : op = CompOp.eq ∨ op = CompOp.lte ∨ op = CompOp.gte)
    (fields : List (String × BVal)) (habs : lookupField fields "a" = none) :
    sbeMatches (MatchPred.cmp "a" [] op BVal.null) (BVal.obj fields) = some true ∧
      sbeMatches (MatchPred.cmp "a" [] op BVal.null)
        (BVal.obj (("a", BVal.null) :: fields)) = some true ∧
      sbeMatches (MatchPred.existsPred "a" []) (BVal.obj fields) = some false ∧
      sbeMatches (MatchPred.existsPred "a" [])
        (BVal.obj (("a", BVal.null) :: fields)) = some true ∧
      sbeMatches (MatchPred.cmp "a" [] CompOp.lte BVal.null)
        (BVal.obj [("a", BVal.null)]) = some true ∧
      sbeMatches (MatchPred.cmp "a" [] CompOp.lte BVal.null) (BVal.obj []) = some true ∧
      sbeMatches (MatchPred.cmp "a" [] CompOp.lte BVal.null)
        (BVal.obj [("a", BVal.int 5)]) = some false := by
  have hf : lookupField (("a", BVal.null) :: fields) "a" = some BVal.null := by
    simp [lookupField]
  refine ⟨?_, ?_, ?_, ?_, by decide, by decide, by decide⟩
  · rw [sbeMatches_eq_sbeEvalPred (MatchPred.cmp "a" [] op BVal.null) (BVal.obj fields) rfl]
    simp only [sbeEvalPred, generateTraverseF, getField, habs]
    rcases hop with h | h | h <;> subst h <;> rfl
  · rw [sbeMatches_eq_sbeEvalPred (MatchPred.cmp "a" [] op BVal.null)
      (BVal.obj (("a", BVal.null) :: fields)) rfl]
    simp only [sbeEvalPred, generateTraverseF, getField, hf]
    rcases hop with h | h | h <;> subst h <;> rfl
  · rw [sbeMatches_eq_sbeEvalPred (MatchPred.existsPred "a" []) (BVal.obj fields) rfl]
    simp only [sbeEvalPred, generateTraverseF, getField, habs]
    rfl
  · rw [sbeMatches_eq_sbeEvalPred (MatchPred.existsPred "a" [])
      (BVal.obj (("a", BVal.null) :: fields)) rfl]
    simp only [sbeEvalPred, generateTraverseF, getField, hf]
    rfl

/-- Witness for C3 at `op = $lte` over a document whose only field is `b`
(so `a` is absent), with both hypotheses discharged concretely. -/
theorem c3_null_missing_equivalence_witness :
    (lookupField [("b", BVal.int 7)] "a" = none) ∧
      (sbeMatches (MatchPred.cmp "a" [] CompOp.lte BVal.null)
          (BVal.obj [("b", BVal.int 7)]) = some true ∧
        sbeMatches (MatchPred.cmp "a" [] CompOp.lte BVal.null)
          (BVal.obj (("a", BVal.null) :: [("b", BVal.int 7)])) = some true ∧
        sbeMatches (MatchPred.existsPred "a" []) (BVal.obj [("b", BVal.int 7)]) =
          some false ∧
        sbeMatches (MatchPred.existsPred "a" [])
          (BVal.obj (("a", BVal.null) :: [("b", BVal.int 7)])) = some true ∧
        sbeMatches (MatchPred.cmp "a" [] CompOp.lte BVal.null)
          (BVal.obj [("a", BVal.null)]) = some true ∧
        sbeMatches (MatchPred.cmp "a" [] CompOp.lte BVal.null) (BVal.obj []) = some true ∧
        sbeMatches (MatchPred.cmp "a" [] CompOp.lte BVal.null)
          (BVal.obj [("a", BVal.int 5)]) = some false) :=
  ⟨rfl,
    c3_null_missing_equivalence CompOp.lte (Or.inr (Or.inl rfl)) [("b", BVal.int 7)] rfl⟩

/-- C4: a comparison over a path resolving to an array always compares
the array's elements, and compares the whole array in addition exactly
when the right-hand side is an array, MinKey or MaxKey; concretely, over
`{a: [1,2,3]}` the filter `{a: 2}` accepts element-wise, `{a: [1,2,3]}`
accepts as a whole array, `{a: {$gt: 5}}` rejects, and `{a: {$gt: [1,2]}}`
accepts through the whole-array comparison alone — no element of
`[1,2,3]` satisfies it. -/
theorem c4_array_duality :
    (∀ rhs : BVal,
      comparisonTraversalMode rhs = LeafTraversalMode.kArrayAndItsElements ↔
        ((∃ es, rhs = BVal.arr es) ∨ rhs = BVal.minKey ∨ rhs = BVal.maxKey)) ∧
      (∀ (op : CompOp) (rhs : BVal) (es : List BVal),
        sbeEvalPred (MatchPred.cmp "a" [] op rhs) (BVal.obj [("a", BVal.arr es)]) =
          (es.any (fun e => generateComparisonExpr op rhs (some e)) ||
            (checkWholeArray rhs && generateComparisonExpr op rhs (some (BVal.arr es))))) ∧
      sbeMatches (MatchPred.cmp "a" [] CompOp.eq (BVal.int 2))
        (BVal.obj [("a", BVal.arr [BVal.int 1, BVal.int 2, BVal.int 3])]) = some true ∧
      sbeMatches (MatchPred.cmp "a" [] CompOp.eq
          (BVal.arr [BVal.int 1, BVal.int 2, BVal.int 3]))
        (BVal.obj [("a", BVal.arr [BVal.int 1, BVal.int 2, BVal.int 3])]) = some true ∧
      sbeMatches (MatchPred.cmp "a" [] CompOp.gt (BVal.int 5))
        (BVal.obj [("a", BVal.arr [BVal.int 1, BVal.int 2, BVal.int 3])]) = some false ∧
      sbeMatches (MatchPred.cmp "a" [] CompOp.gt (BVal.arr [BVal.int 1, BVal.int 2]))
        (BVal.obj [("a", BVal.arr [BVal.int 1, BVal.int 2, BVal.int 3])]) = some true ∧
      ([BVal.int 1, BVal.int 2, BVal.int 3].any fun e =>
        generateComparisonExpr CompOp.gt (BVal.arr [BVal.int 1, BVal.int 2]) (some e)) =
          false := by
  refine ⟨?_, ?_, by decide, by decide, by decide, by decide, by decide⟩
  · intro rhs
    cases rhs <;> simp [comparisonTraversalMode, checkWholeArray]
  · intro op rhs es
    have hl : lookupField [("a", BVal.arr es)] "a" = some (BVal.arr es) := by
      simp [lookupField]
    simp only [sbeEvalPred, generateTraverseF, getField, hl]
    cases hcw : checkWholeArray rhs with
    | false =>
      simp [comparisonTraversalMode, hcw, generateTraverseFLeaf, traverseF]
    | true =>
      simp [comparisonTraversalMode, hcw, generateTraverseFLeaf, traverseF]

/-- C5: the `$nor` post-visit is the negation of the `$or` build over its
children, and both the `$not` and `$nor` post-visits negate only the
boolean component of their input state while always discarding any
auxiliary matched-index value carried in it: the auxiliary component of
the produced state is `none` for every input, so no index value produced
below a `$not` or `$nor` reaches the output; concretely, a child state
that carries index 3 loses it through `$nor`, and one carrying index 7
loses it through `$not`. -/
theorem c5_nor_not_negate_and_discard_index :
    (∀ cs : List FilterState,
      norVisitState cs = (!(getBool (orCombineStates cs)), none)) ∧
      (∀ cs : List FilterState, (norVisitState cs).2 = none) ∧
      (∀ s : FilterState, notVisitState s = (!(getBool s), none)) ∧
      (∀ s : FilterState, (notVisitState s).2 = none) ∧
      norVisitState [(true, some 3)] = (false, none) ∧
      notVisitState (true, some 7) = (false, none) :=
  ⟨fun _ => rfl, fun _ => rfl, fun _ => rfl, fun _ => rfl, rfl, rfl⟩

/-- C6: the short-circuiting combinators receive their branches in
original child order (popping the evaluation stack and reversing restores
the order the children were pushed in) and stop as soon as the result is
determined: an `$or` whose branches evaluate to `[false, true, x]`
terminates after the second branch with result true, never evaluating the
third branch, whatever it is; symmetrically an `$and` over
`[true, false, x]` terminates at its first false branch; in general the
number of branches evaluated is the position of the first decisive branch
and the result is the disjunction resp. conjunction. -/
theorem c6_short_circuit_evaluation_order :
    (∀ x : Bool, shortCircuitOrTrace [false, true, x] = (true, 2)) ∧
      (∀ x : Bool, shortCircuitAndTrace [true, false, x] = (false, 2)) ∧
      (∀ (cs rest : List Bool), extractBranches (cs.reverse ++ rest) cs.length = cs) ∧
      (∀ bs : List Bool, (shortCircuitOrTrace bs).1 = bs.any id) ∧
      (∀ bs : List Bool, (shortCircuitAndTrace bs).1 = bs.all id) := by
  refine ⟨fun x => rfl, fun x => rfl, ?_, ?_, ?_⟩
  · intro cs rest
    simp only [extractBranches]
    rw [← List.length_reverse cs, List.take_left, List.reverse_reverse]
  · intro bs
    induction bs with
    | nil => rfl
    | cons b rest ih =>
      cases b <;> simp [shortCircuitOrTrace, ih]
  · intro bs
    induction bs with
    | nil => rfl
    | cons b rest ih =>
      cases b <;> simp [shortCircuitAndTrace, ih]

/-- C7: a non-parameterized `$size` with a negative literal compiles to
the constant false before any predicate or traversal is generated
(`generateArraySize` yields no leaf predicate, so no field access on the
path appears in the plan), and the compiled filter `{a: {$size: -1}}`
rejects every input document. -/
theorem c7_negative_size_constant_false (size : Int) (hneg : size < 0) :
    generateArraySize size = none ∧
      (∀ (f : String) (ps : List String) (d : BVal),
        sbeEvalPred (MatchPred.sizePred f ps size) d = false) ∧
      (∀ d : BVal, sbeMatches (MatchPred.sizePred "a" [] (-1)) d = some false) ∧
      generateArraySize (-1) = none := by
  refine ⟨by simp [generateArraySize, hneg], ?_, ?_, rfl⟩
  · intro f ps d
    simp [sbeEvalPred, generateArraySize, hneg]
  · intro d
    rw [sbeMatches_eq_sbeEvalPred (MatchPred.sizePred "a" [] (-1)) d rfl]
    rfl

/-- Witness for C7 at the concrete size -1. -/
theorem c7_negative_size_constant_false_witness :
    ((-1 : Int) < 0) ∧
      (generateArraySize (-1) = none ∧
        (∀ (f : String) (ps : List String) (d : BVal),
          sbeEvalPred (MatchPred.sizePred f ps (-1)) d = false) ∧
        (∀ d : BVal, sbeMatches (MatchPred.sizePred "a" [] (-1)) d = some false) ∧
        generateArraySize (-1) = none) :=
  ⟨by decide, c7_negative_size_constant_false (-1) (by decide)⟩

/-- C8: logical nodes with zero children compile to constants that
consult no field of the document: an empty `$and` is constant true, an
empty `$or` is constant false, and an empty `$nor` is the negation of its
(constant false) `$or` build, hence constant true — both through the
expression build and through the whole `generateFilter` pipeline — and
each result is the same for every pair of documents. -/
theorem c8_empty_logical_constants :
    (∀ d : BVal, sbeEvalPred (MatchPred.andPred []) d = true) ∧
      (∀ d : BVal, sbeEvalPred (MatchPred.orPred []) d = false) ∧
      (∀ d : BVal, sbeEvalAny [] d = false) ∧
      (∀ d : BVal, sbeEvalPred (MatchPred.norPred []) d = true) ∧
      (∀ d : BVal, sbeMatches (MatchPred.andPred []) d = some true) ∧
      (∀ d : BVal, sbeMatches (MatchPred.orPred []) d = some false) ∧
      (∀ d : BVal, sbeMatches (MatchPred.norPred []) d = some true) ∧
      (∀ d d' : BVal,
        sbeEvalPred (MatchPred.andPred []) d = sbeEvalPred (MatchPred.andPred []) d' ∧
          sbeEvalPred (MatchPred.orPred []) d = sbeEvalPred (MatchPred.orPred []) d' ∧
          sbeEvalPred (MatchPred.norPred []) d = sbeEvalPred (MatchPred.norPred []) d') :=
  ⟨fun _ => rfl, fun _ => rfl, fun _ => rfl, fun _ => rfl, fun _ => rfl, fun _ => rfl,
    fun _ => rfl, fun _ _ => ⟨rfl, rfl, rfl⟩⟩

mutual
/-- Whether the tree contains a node kind for which the pre-visitor
raises the distinct unsupported-expression signal (geo, internal-schema,
source lines 1088-1093, 1101-1160). -/
def containsUnsupportedSignal (p : MatchPred) : Bool :=
  match p with
  | .geoPred => true
  | .geoNearPred => true
  | .internalSchema => true
  | .andPred cs => containsUnsupportedSignalList cs
  | .orPred cs => containsUnsupportedSignalList cs
  | .norPred cs => containsUnsupportedSignalList cs
  | .notPred c => containsUnsupportedSignal c
  | _ => false

/-- Some child contains an unsupported-signal kind. -/
def containsUnsupportedSignalList (cs : List MatchPred) : Bool :=
  match cs with
  | [] => false
  | c :: rest => containsUnsupportedSignal c || containsUnsupportedSignalList rest
end

mutual
/-- Whether the tree contains a `$text` kind, for which the pre-visitor
hits `MONGO_UNREACHABLE` (source lines 1179-1191) rather than the
unsupported-expression signal. -/
def containsTextKind (p : MatchPred) : Bool :=
  match p with
  | .textPred => true
  | .textNoOpPred => true
  | .andPred cs => containsTextKindList cs
  | .orPred cs => containsTextKindList cs
  | .norPred cs => containsTextKindList cs
  | .notPred c => containsTextKind c
  | _ => false

/-- Some child contains a `$text` kind. -/
def containsTextKindList (cs : List MatchPred) : Bool :=
  match cs with
  | [] => false
  | c :: rest => containsTextKind c || containsTextKindList rest
end

mutual
theorem checkSupported_ok_of_not_contains (p : MatchPred)
    (hu : containsUnsupportedSignal p = false) (ht : containsTextKind p = false) :
    checkSupported p = Except.ok () := by
  cases p with
  | andPred cs =>
    exact checkSupportedList_ok_of_not_contains cs
      (by simpa [containsUnsupportedSignal] using hu)
      (by simpa [containsTextKind] using ht)
  | orPred cs =>
    exact checkSupportedList_ok_of_not_contains cs
      (by simpa [containsUnsupportedSignal] using hu)
      (by simpa [containsTextKind] using ht)
  | norPred cs =>
    exact checkSupportedList_ok_of_not_contains cs
      (by simpa [containsUnsupportedSignal] using hu)
      (by simpa [containsTextKind] using ht)
  | notPred c =>
    exact checkSupported_ok_of_not_contains c
      (by simpa [containsUnsupportedSignal] using hu)
      (by simpa [containsTextKind] using ht)
  | geoPred => exact absurd hu (by simp [containsUnsupportedSignal])
  | geoNearPred => exact absurd hu (by simp [containsUnsupportedSignal])
  | internalSchema => exact absurd hu (by simp [containsUnsupportedSignal])
  | textPred => exact absurd ht (by simp [containsTextKind])
  | textNoOpPred => exact absurd ht (by simp [containsTextKind])
  | _ => rfl

theorem checkSupportedList_ok_of_not_contains (cs : List MatchPred)
    (hu : containsUnsupportedSignalList cs = false)
    (ht : containsTextKindList cs = false) :
    checkSupportedList cs = Except.ok () := by
  cases cs with
  | nil => rfl
  | cons c rest =>
    simp only [containsUnsupportedSignalList, Bool.or_eq_false_iff] at hu
    simp only [containsTextKindList, Bool.or_eq_false_iff] at ht
    simp only [checkSupportedList,
      checkSupported_ok_of_not_contains c hu.1 ht.1,
      checkSupportedList_ok_of_not_contains rest hu.2 ht.2]
end

mutual
theorem checkSupported_error_of_contains (p : MatchPred)
    (hu : containsUnsupportedSignal p = true) (ht : containsTextKind p = false) :
    checkSupported p = Except.error CompileError.unsupportedExpr := by
  cases p with
  | andPred cs =>
    exact checkSupportedList_error_of_contains cs
      (by simpa [containsUnsupportedSignal] using hu)
      (by simpa [containsTextKind] using ht)
  | orPred cs =>
    exact checkSupportedList_error_of_contains cs
      (by simpa [containsUnsupportedSignal] using hu)
      (by simpa [containsTextKind] using ht)
  | norPred cs =>
    exact checkSupportedList_error_of_contains cs
      (by simpa [containsUnsupportedSignal] using hu)
      (by simpa [containsTextKind] using ht)
  | notPred c =>
    exact checkSupported_error_of_contains c
      (by simpa [containsUnsupportedSignal] using hu)
      (by simpa [containsTextKind] using ht)
  | geoPred => rfl
  | geoNearPred => rfl
  | internalSchema => rfl
  | textPred => exact absurd ht (by simp [containsTextKind])
  | textNoOpPred => exact absurd ht (by simp [containsTextKind])
  | _ => exact absurd hu (by simp [containsUnsupportedSignal])

theorem checkSupportedList_error_of_contains (cs : List MatchPred)
    (hu : containsUnsupportedSignalList cs = true)
    (ht : containsTextKindList cs = false) :
    checkSupportedList cs = Except.error CompileError.unsupportedExpr := by
  cases cs with
  | nil => exact absurd hu (by simp [containsUnsupportedSignalList])
  | cons c rest =>
    simp only [containsTextKindList, Bool.or_eq_false_iff] at ht
    cases hc : containsUnsupportedSignal c with
    | true =>
      simp only [checkSupportedList, checkSupported_error_of_contains c hc ht.1]
    | false =>
      simp only [containsUnsupportedSignalList, hc, Bool.false_or] at hu
      simp only [checkSupportedList, checkSupported_ok_of_not_contains c hc ht.1,
        checkSupportedList_error_of_contains rest hu ht.2]
end

/-- C9, counterexample: `$text` is a node kind this compiler does not
lower, yet compiling a tree containing it does not raise the distinct
unsupported-expression signal: the pre-visitor hits the
`MONGO_UNREACHABLE` invariant instead (source lines 1179-1184), which is
an ordinary fatal error, not the capability-gap signal the claim
requires for every unlowered kind. -/
theorem c9_counterexample_text_is_not_unsupported_signal :
    generateFilter MatchPred.textPred Stage.base (some 0) false true false false =
      Except.error CompileError.unreachableHit ∧
      CompileError.unreachableHit ≠ CompileError.unsupportedExpr :=
  ⟨rfl, by decide⟩

/-- C9, amended: with SBE fully enabled, for every predicate tree that
contains a kind the pre-visitor flags as unsupported (geo or
internal-schema) and contains no `$text` kind — `$text` instead hits an
unreachable invariant, since the planner never routes it to this
compiler — compilation fails with the distinct unsupported-expression
signal (tasserted 4822878) before producing any plan, for every stage,
input slot, slot map and index-tracking request; the signal is
distinguishable from ordinary invariant errors. -/
theorem c9_amended_unsupported_signal (p : MatchPred)
    (hu : containsUnsupportedSignal p = true) (ht : containsTextKind p = false)
    (stage : Stage) (inputSlot : Nat) (hasSlots trackIndex : Bool) :
    generateFilter p stage (some inputSlot) hasSlots true false trackIndex =
      Except.error CompileError.unsupportedExpr := by
  have herr := checkSupported_error_of_contains p hu ht
  cases p with
  | andPred cs =>
    cases cs with
    | nil => exact absurd hu (by simp [containsUnsupportedSignal,
        containsUnsupportedSignalList])
    | cons c rest =>
      simp only [generateFilter, Bool.false_and, Bool.false_eq_true, if_false,
        Option.isSome_some, Bool.true_or, Bool.not_true, herr]
  | geoPred =>
    simp only [generateFilter, Bool.false_and, Bool.false_eq_true, if_false,
      Option.isSome_some, Bool.true_or, Bool.not_true, herr]
  | geoNearPred =>
    simp only [generateFilter, Bool.false_and, Bool.false_eq_true, if_false,
      Option.isSome_some, Bool.true_or, Bool.not_true, herr]
  | internalSchema =>
    simp only [generateFilter, Bool.false_and, Bool.false_eq_true, if_false,
      Option.isSome_some, Bool.true_or, Bool.not_true, herr]
  | orPred cs =>
    simp only [generateFilter, Bool.false_and, Bool.false_eq_true, if_false,
      Option.isSome_some, Bool.true_or, Bool.not_true, herr]
  | norPred cs =>
    simp only [generateFilter, Bool.false_and, Bool.false_eq_true, if_false,
      Option.isSome_some, Bool.true_or, Bool.not_true, herr]
  | notPred c =>
    simp only [generateFilter, Bool.false_and, Bool.false_eq_true, if_false,
      Option.isSome_some, Bool.true_or, Bool.not_true, herr]
  | _ => exact absurd hu (by simp [containsUnsupportedSignal])

/-- Witness for the amended C9 at a concrete tree: `$and` over a geo
predicate and an equality. -/
theorem c9_amended_unsupported_signal_witness :
    (containsUnsupportedSignal
        (MatchPred.andPred [MatchPred.geoPred,
          MatchPred.cmp "a" [] CompOp.eq (BVal.int 1)]) = true) ∧
      (containsTextKind
        (MatchPred.andPred [MatchPred.geoPred,
          MatchPred.cmp "a" [] CompOp.eq (BVal.int 1)]) = false) ∧
      generateFilter
          (MatchPred.andPred [MatchPred.geoPred,
            MatchPred.cmp "a" [] CompOp.eq (BVal.int 1)])
          Stage.base (some 0) false true false true =
        Except.error CompileError.unsupportedExpr :=
  ⟨by decide, by decide,
    c9_amended_unsupported_signal
      (MatchPred.andPred [MatchPred.geoPred, MatchPred.cmp "a" [] CompOp.eq (BVal.int 1)])
      (by decide) (by decide) Stage.base 0 false true⟩

/-- C10: when the root match expression is a childless `$and`,
`generateFilter` hands the caller's input stage back completely unchanged
and produces no output slot — no filter, projection or traversal stage is
attached — for every input stage and every combination of input slot,
slot map, feature flag and index-tracking request (the only exclusion is
the caller-contract tassert 7097206, which fires before the early return
whenever index tracking is requested together with an index-scan
filter). -/
theorem c10_empty_and_returns_stage_unchanged (stage : Stage) (inputSlot : Option Nat)
    (hasSlots sbeFull isFilterOverIxscan trackIndex : Bool)
    (hcompat : ¬(isFilterOverIxscan = true ∧ trackIndex = true)) :
    generateFilter (MatchPred.andPred []) stage inputSlot hasSlots sbeFull
        isFilterOverIxscan trackIndex = Except.ok (none, stage) := by
  have hff : (isFilterOverIxscan && trackIndex) = false := by
    cases isFilterOverIxscan <;> cases trackIndex <;> simp_all
  simp only [generateFilter, hff, Bool.false_eq_true, if_false]

/-- Witness for C10 at a concrete argument combination: a bare base
stage, no input slot, no slot map, flag off, index tracking on. -/
theorem c10_empty_and_returns_stage_unchanged_witness :
    (¬(false = true ∧ true = true)) ∧
      generateFilter (MatchPred.andPred []) Stage.base none false false false true =
        Except.ok (none, Stage.base) :=
  ⟨by simp, c10_empty_and_returns_stage_unchanged Stage.base none false false false true
    (by simp)⟩
